import Mathlib

/-!
Shallow embedding of the real-time audio interview session logic of
`career-catalyst` (`src/components/Home.tsx`) and of the retry wrapper of
`src/services/geminiService.ts`, together with theorems settling the
specification claims about them.

Modelling conventions:
* machine floats carrying audio-clock times are modelled as rationals (`Rat`);
* the mutable refs of the React component become fields of an explicit
  `HomeState` record, and each event callback becomes a state-passing function;
* browser resources are identified by `Nat` handles; the set of microphone
  streams whose tracks are currently live is carried in an `AudioWorld` record
  so that releasing/leaking a stream is observable;
* fallible paths are total: every guard written with `?.` or an explicit state
  check in the source is mirrored by an `Option` match, so the functions model
  the no-exception behaviour of the guarded source.
-/

namespace CareerCatalyst

/-- Participant role of a chat message, as in `ChatMessage` of the source. -/
inductive Role
  | user
  | model
  deriving DecidableEq, Repr

/-- One transcript entry: `{ role, content }`. -/
structure ChatMessage where
  role : Role
  content : String
  deriving DecidableEq, Repr

/-- The `AudioSessionStatus` union type of `Home.tsx`. -/
inductive AudioSessionStatus
  | idle
  | connecting
  | waiting_for_ai
  | ai_speaking
  | listening
  deriving DecidableEq, Repr

/-- The `SessionState` union type of `Home.tsx` (UI-level session phase). -/
inductive UiSessionState
  | idle
  | configuring
  | chat_active
  | technical_active
  | feedback
  | session_completed
  | elevator_pitch
  deriving DecidableEq, Repr

/-- Base64 alphabet used by the browser primitives `btoa`/`atob`, which the
source helpers `encode`/`decode` in `Home.tsx` delegate to. -/
def b64Alphabet : List Char :=
  "ABCDEFGHIJKLMNOPQRSTUVWXYZabcdefghijklmnopqrstuvwxyz0123456789+/".toList

/-- Character of the base64 alphabet at a 6-bit index. -/
def b64Char (i : Nat) : Char := b64Alphabet.getD i 'A'

/-- Index of a base64 character in the alphabet (64 for characters outside
it, in particular for the padding character). -/
def b64Index (c : Char) : Nat := b64Alphabet.indexOf c

/-- Model of `encode` in `Home.tsx`: the byte array is turned into a binary
string one char-code per byte and passed to `btoa`; on byte values < 256 this
is exactly standard base64 chunk encoding with `=` padding. -/
def encode : List Nat → List Char
  | a :: b :: c :: rest =>
      b64Char (a / 4) :: b64Char (a % 4 * 16 + b / 16) ::
        b64Char (b % 16 * 4 + c / 64) :: b64Char (c % 64) :: encode rest
  | [a, b] => [b64Char (a / 4), b64Char (a % 4 * 16 + b / 16), b64Char (b % 16 * 4), '=']
  | [a] => [b64Char (a / 4), b64Char (a % 4 * 16), '=', '=']
  | [] => []

/-- Byte reconstruction from a list of 6-bit base64 indices (padding already
stripped), as performed by `atob`. -/
def decodeIndices : List Nat → List Nat
  | i1 :: i2 :: i3 :: i4 :: rest =>
      (i1 * 4 + i2 / 16) :: (i2 % 16 * 16 + i3 / 4) :: (i3 % 4 * 64 + i4) ::
        decodeIndices rest
  | [i1, i2, i3] => [i1 * 4 + i2 / 16, i2 % 16 * 16 + i3 / 4]
  | [i1, i2] => [i1 * 4 + i2 / 16]
  | _ => []

/-- Model of `decode` in `Home.tsx`: `atob` decodes the base64 text (padding
characters contribute no output bytes) and each resulting char code becomes
one byte of the returned `Uint8Array`. -/
def decode (s : List Char) : List Nat :=
  decodeIndices ((s.filter (fun c => c ≠ '=')).map b64Index)

/-- The mutable state of the `InterviewPrep` component that the audio session
logic reads and writes: the React `useState` values and `useRef` cells of
`Home.tsx`, taken at their current values. Browser resources are identified by
`Nat` handles held in `Option` cells (a `none` cell mirrors a `null` ref). -/
structure HomeState where
  sessionState : UiSessionState
  isLoading : Bool
  error : Option String
  isAudioSessionActive : Bool
  messages : List ChatMessage
  isSpeaking : Bool
  audioSessionStatus : AudioSessionStatus
  sessionPromise : Option Nat
  inputAudioContext : Option Nat
  outputAudioContext : Option Nat
  mediaStream : Option Nat
  scriptProcessor : Option Nat
  mediaStreamSource : Option Nat
  nextAudioStartTime : Rat
  audioSources : List Nat
  currentInputTranscription : String
  currentOutputTranscription : String
  lastMessageRole : Option Role
  completedSession : Option (List ChatMessage × Bool)
  deriving DecidableEq, Repr

/-- External resource bookkeeping: the microphone streams whose tracks are
currently live. `getUserMedia` adds a stream; stopping every track of a
stream removes it. -/
structure AudioWorld where
  openStreams : List Nat
  deriving DecidableEq, Repr

/-- A fresh component state: every ref `null`, every buffer empty, both status
values `idle`, exactly as the component mounts. -/
def s0 : HomeState where
  sessionState := UiSessionState.idle
  isLoading := false
  error := none
  isAudioSessionActive := false
  messages := []
  isSpeaking := false
  audioSessionStatus := AudioSessionStatus.idle
  sessionPromise := none
  inputAudioContext := none
  outputAudioContext := none
  mediaStream := none
  scriptProcessor := none
  mediaStreamSource := none
  nextAudioStartTime := 0
  audioSources := []
  currentInputTranscription := ""
  currentOutputTranscription := ""
  lastMessageRole := none
  completedSession := none

/-- Effect on the outside world of `mediaStreamRef.current?.getTracks().forEach(track => track.stop())`:
if a stream is held, its tracks stop being live; a `null` ref does nothing. -/
def stopTracks (w : AudioWorld) (ms : Option Nat) : AudioWorld :=
  match ms with
  | some m => ⟨w.openStreams.filter (fun x => x ≠ m)⟩
  | none => w

/-- Model of `cleanupAudio` in `Home.tsx`: closes the session promise, stops
the microphone tracks, disconnects the processing nodes, closes both audio
contexts (guarded on not-already-closed), stops and clears every in-flight
playback source, cancels speech synthesis, and nulls every ref. Each step of
the source is guarded (`?.`, state check, `.catch`), which this total function
mirrors. -/
def cleanupAudio (s : HomeState) (w : AudioWorld) : HomeState × AudioWorld :=
  ({ s with
      sessionPromise := none
      mediaStream := none
      scriptProcessor := none
      mediaStreamSource := none
      inputAudioContext := none
      audioSources := []
      outputAudioContext := none
      isSpeaking := false },
   stopTracks w s.mediaStream)

/-- Model of `resetToIdle` in `Home.tsx` (the parts touching session, audio
and error state; the technical-interview fields are outside this model). -/
def resetToIdle (s : HomeState) (w : AudioWorld) : HomeState × AudioWorld :=
  let s1 := { s with
      sessionState := UiSessionState.idle
      messages := []
      error := none
      completedSession := none
      audioSessionStatus := AudioSessionStatus.idle }
  let r := cleanupAudio s1 w
  ({ r.1 with isAudioSessionActive := false, isSpeaking := false }, r.2)

/-- The user-facing message set by the microphone-failure catch block of
`startLiveAudioSession`. -/
def micErrorMsg : String := "Could not access microphone. Please grant permission and try again."

/-- Model of `handleEndSession` in `Home.tsx`. The function is re-created on
every render and closes over that render's `sessionState`, `messages` and
`isAudioSessionActive` values; `captured` is the state of the render whose
closure is invoked, while the refs and the stable state setters act on the
current state `s`. It cancels speech synthesis, runs `cleanupAudio`, then
either keeps the captured transcript for saving (conversational session whose
captured transcript exceeds the save threshold) or performs the full
`resetToIdle`. -/
def handleEndSession (captured s : HomeState) (w : AudioWorld) : HomeState × AudioWorld :=
  let s1 := { s with isSpeaking := false }
  let r := cleanupAudio s1 w
  if captured.sessionState = UiSessionState.chat_active ∧
      captured.messages.length > (if captured.isAudioSessionActive then 0 else 1) then
    ({ r.1 with
        completedSession := some (captured.messages, captured.isAudioSessionActive)
        sessionState := UiSessionState.session_completed }, r.2)
  else
    resetToIdle r.1 r.2

/-- The synchronous prefix of `startLiveAudioSession`, run before microphone
acquisition: `setIsAudioSessionActive(true)`, `setSessionState('chat_active')`,
`setIsLoading(true)`, `setAudioSessionStatus('connecting')`. -/
def startAudioPrefix (s : HomeState) : HomeState :=
  { s with
      isAudioSessionActive := true
      sessionState := UiSessionState.chat_active
      isLoading := true
      audioSessionStatus := AudioSessionStatus.connecting }

/-- The resource-acquisition steps of `startLiveAudioSession` on the success
path: `getUserMedia` opens a new stream and the ref takes it, the two audio
contexts are created, and `ai.live.connect` yields the session promise.
Nothing of a prior session is stopped or released here. -/
def acquireResources (s : HomeState) (w : AudioWorld)
    (stream inCtx outCtx sid : Nat) : HomeState × AudioWorld :=
  ({ s with
      mediaStream := some stream
      inputAudioContext := some inCtx
      outputAudioContext := some outCtx
      sessionPromise := some sid },
   ⟨w.openStreams ++ [stream]⟩)

/-- Model of `startLiveAudioSession` up to a successful connection request:
the synchronous prefix followed by resource acquisition. -/
def startLiveAudioSession (s : HomeState) (w : AudioWorld)
    (stream inCtx outCtx sid : Nat) : HomeState × AudioWorld :=
  acquireResources (startAudioPrefix s) w stream inCtx outCtx sid

/-- Model of `startLiveAudioSession` when `getUserMedia` rejects (microphone
permission denied): the synchronous prefix ran, no resource was acquired, and
the catch block sets the error message and invokes the `handleEndSession`
closure captured at the render that created `startLiveAudioSession` — there
`sessionState`, `messages` and `isAudioSessionActive` still hold their
pre-click values (in particular `isAudioSessionActive` is `false` at the
render showing the mic button, so the save threshold is
`messages.length > 1`). -/
def startLiveAudioSessionMicDenied (s : HomeState) (w : AudioWorld) :
    HomeState × AudioWorld :=
  let s1 := { startAudioPrefix s with error := some micErrorMsg }
  handleEndSession s s1 w

/-- Truncation toward zero of a rational, as JavaScript number-to-integer
conversion performs. -/
def truncRat (x : Rat) : Int := if 0 ≤ x then x.floor else x.ceil

/-- Assignment of a JavaScript number into an `Int16Array` slot: truncate
toward zero, reduce modulo 2^16, reinterpret as a signed 16-bit value. Models
`int16[i] = data[i] * 32768` in `createBlob`. -/
def toInt16 (x : Rat) : Int :=
  let u := truncRat (x * 32768) % 65536
  if u < 32768 then u else u - 65536

/-- Little-endian byte serialization of one 16-bit sample, as reading the
`Int16Array`'s backing buffer as a `Uint8Array` produces. -/
def int16Bytes (x : Int) : List Nat :=
  let u := (x % 65536).toNat
  [u % 256, u / 256]

/-- Byte serialization of a whole sample block. -/
def blockBytes : List Rat → List Nat
  | [] => []
  | x :: rest => int16Bytes (toInt16 x) ++ blockBytes rest

/-- The outbound audio payload built by `createBlob` in `Home.tsx`. -/
structure OutBlob where
  data : List Char
  mimeType : String
  deriving DecidableEq, Repr

/-- Model of `createBlob`: scale the float block to 16-bit integers,
byte-serialize, base64-encode, tag with the fixed PCM descriptor. -/
def createBlob (block : List Rat) : OutBlob where
  data := encode (blockBytes block)
  mimeType := "audio/pcm;rate=16000"

/-- Model of the `processor.onaudioprocess` handler wired in `onopen`: when
the status ref is not `listening` the handler returns with no transmission;
otherwise the captured block is encoded and handed to `sendRealtimeInput`
(the returned payload). -/
def onaudioprocess (s : HomeState) (block : List Rat) : Option OutBlob :=
  if s.audioSessionStatus ≠ AudioSessionStatus.listening then none
  else some (createBlob block)

/-- Overwriting of the content of the last element of the message list, as
`newMessages[newMessages.length - 1].content = ...` performs (no effect on an
empty list, where the source expression would be an error; the handlers only
reach it when a last message exists). -/
def setLastContent : List ChatMessage → String → List ChatMessage
  | [], _ => []
  | [m], c => [{ m with content := c }]
  | m :: m2 :: rest, c => m :: setLastContent (m2 :: rest) c

/-- Model of the `inputTranscription` branch of the `onmessage` callback:
append the fragment to the cumulative input buffer; push a fresh user message
when the last appended message is not a user one, otherwise overwrite the last
message's content with the buffer; record `user` as the last role. -/
def onInputTranscription (s : HomeState) (text : String) : HomeState :=
  let buf := s.currentInputTranscription ++ text
  let msgs :=
    if s.lastMessageRole ≠ some Role.user then s.messages ++ [⟨Role.user, buf⟩]
    else setLastContent s.messages buf
  { s with currentInputTranscription := buf, messages := msgs,
           lastMessageRole := some Role.user }

/-- Model of the `outputTranscription` branch of `onmessage`, symmetric to the
input branch with role `model`. -/
def onOutputTranscription (s : HomeState) (text : String) : HomeState :=
  let buf := s.currentOutputTranscription ++ text
  let msgs :=
    if s.lastMessageRole ≠ some Role.model then s.messages ++ [⟨Role.model, buf⟩]
    else setLastContent s.messages buf
  { s with currentOutputTranscription := buf, messages := msgs,
           lastMessageRole := some Role.model }

/-- Model of the `turnComplete` branch of `onmessage`: both cumulative buffers
are cleared; the message list and the last-role pointer are left untouched. -/
def onTurnComplete (s : HomeState) : HomeState :=
  { s with currentInputTranscription := "", currentOutputTranscription := "" }

/-- The one-shot timer armed after scheduling a playback buffer: the scheduled
end time it captured, and the delay in milliseconds it was armed with. -/
structure PlaybackTimer where
  scheduledEnd : Rat
  delayMs : Rat
  deriving DecidableEq, Repr

/-- Result of handling one inbound audio chunk: the updated state, the start
and end times the buffer was scheduled at, and the armed timer. -/
structure ScheduleResult where
  state : HomeState
  scheduledStart : Rat
  scheduledEnd : Rat
  timer : PlaybackTimer
  deriving DecidableEq, Repr

/-- Model of the audio branch of `onmessage`: set status `ai_speaking`, raise
`nextAudioStartTimeRef` to the output clock if it fell behind, schedule the
decoded buffer at that time, advance the ref by the buffer's duration,
register the source as in-flight, and arm the one-shot status timer with the
time remaining until the scheduled end (clamped at zero). `clock` is the
output context's `currentTime` read by this invocation and `duration` the
decoded buffer's duration. -/
def handleAudioChunk (s : HomeState) (clock duration : Rat) (src : Nat) :
    ScheduleResult :=
  let s1 := { s with audioSessionStatus := AudioSessionStatus.ai_speaking }
  let start := max s1.nextAudioStartTime clock
  let e := start + duration
  let s2 := { s1 with nextAudioStartTime := e, audioSources := s1.audioSources ++ [src] }
  let t := (e - clock) * 1000
  { state := s2, scheduledStart := start, scheduledEnd := e,
    timer := { scheduledEnd := e, delayMs := if t > 0 then t else 0 } }

/-- Model of the armed `setTimeout` callback firing: set status `listening`
only if `nextAudioStartTimeRef` has not been pushed strictly beyond the
scheduled end captured when the timer was armed. -/
def playbackTimerFire (s : HomeState) (t : PlaybackTimer) : HomeState :=
  if s.nextAudioStartTime ≤ t.scheduledEnd then
    { s with audioSessionStatus := AudioSessionStatus.listening }
  else s

/-- Model of a buffer source's `ended` listener: the source is removed from
the in-flight set; nothing else changes. -/
def onSourceEnded (s : HomeState) (src : Nat) : HomeState :=
  { s with audioSources := s.audioSources.filter (fun x => x ≠ src) }

/-- Observation of an error value thrown by an API call, carrying exactly the
fields the classifier in `withRetry` (geminiService.ts) inspects: the
structured `error.code` / `error.status` pair, the `message` string when one
is present, and the outcome of `JSON.parse` applied to that message
(`messageParses` with the parsed `error.code` / `error.status`). -/
structure GenError where
  code : Option Nat
  status : Option String
  message : Option String
  messageParses : Bool
  parsedCode : Option Nat
  parsedStatus : Option String
  deriving DecidableEq, Repr

/-- Boolean substring test on strings. -/
def containsSub (pat s : String) : Bool := decide (pat.toList <:+: s.toList)

/-- Model of the rate-limit classification inside the catch of `withRetry`:
case 1 inspects the structured error, case 2 the JSON-parsed message, case 3
searches the plain message for `429`, `RESOURCE_EXHAUSTED` or (lowercased)
`rate limit`. -/
def isRateLimitError (e : GenError) : Bool :=
  if e.code == some 429 || e.status == some "RESOURCE_EXHAUSTED" then true
  else if (match e.message with
           | some _ => e.messageParses &&
               (e.parsedCode == some 429 || e.parsedStatus == some "RESOURCE_EXHAUSTED")
           | none => false) then true
  else match e.message with
       | some m => containsSub "429" m || containsSub "RESOURCE_EXHAUSTED" m ||
                   containsSub "rate limit" m.toLower
       | none => false

/-- The `MAX_RETRIES` constant of geminiService.ts. -/
def MAX_RETRIES : Nat := 3

/-- The `INITIAL_BACKOFF_MS` constant of geminiService.ts. -/
def INITIAL_BACKOFF_MS : Nat := 1000

/-- Observable trace of one `withRetry` run: the returned or rethrown
outcome, how many times the wrapped call was invoked, and the backoff delays
awaited between attempts, in order. -/
structure RetryTrace (α : Type) where
  result : Except GenError α
  callsMade : Nat
  delays : List Nat
  deriving Repr

/-- The `for` loop of `withRetry`: `fuel` is the number of loop iterations
remaining, `i` the current attempt index, `ds` the delays awaited so far and
`last` the `lastError` variable. The fuel-exhausted case models the
`throw lastError` after the loop. -/
def withRetryLoop {α : Type} (apiCall : Nat → Except GenError α) :
    Nat → Nat → List Nat → Option GenError → RetryTrace α
  | 0, i, ds, last =>
      { result := Except.error (last.getD ⟨none, none, none, false, none, none⟩),
        callsMade := i, delays := ds }
  | fuel + 1, i, ds, _ =>
      match apiCall i with
      | Except.ok v => { result := Except.ok v, callsMade := i + 1, delays := ds }
      | Except.error e =>
          if isRateLimitError e ∧ i < MAX_RETRIES - 1 then
            withRetryLoop apiCall fuel (i + 1) (ds ++ [INITIAL_BACKOFF_MS * 2 ^ i]) (some e)
          else
            { result := Except.error e, callsMade := i + 1, delays := ds }

/-- Model of `withRetry` in geminiService.ts: `apiCall n` is the outcome of
the `n`-th invocation of the wrapped call. -/
def withRetry {α : Type} (apiCall : Nat → Except GenError α) : RetryTrace α :=
  withRetryLoop apiCall MAX_RETRIES 0 [] none

/-- Transcription trace of testable property 3 of the spec: fragments `Hel`,
`lo ` for the user, a turn-complete signal, then fragment `Hi` for the user,
starting from a fresh component state. -/
def c3Trace : HomeState :=
  onInputTranscription
    (onTurnComplete (onInputTranscription (onInputTranscription s0 "Hel") "lo ")) "Hi"

/-- A mid-session state right before an audio chunk arrives: connection open,
microphone stream 1 held, AI about to speak. -/
def c6Start : HomeState :=
  { s0 with
      sessionState := UiSessionState.chat_active
      isAudioSessionActive := true
      audioSessionStatus := AudioSessionStatus.waiting_for_ai
      mediaStream := some 1
      inputAudioContext := some 2
      outputAudioContext := some 3
      sessionPromise := some 4 }

/-- Scheduling of a one-second chunk at output-clock time 0 in `c6Start`. -/
def c6Sched : ScheduleResult := handleAudioChunk c6Start 0 1 10

/-- The state after the session is torn down (explicit end via `resetToIdle`)
while the timer armed by `c6Sched` is still pending. -/
def c6AfterReset : HomeState := (resetToIdle c6Sched.state ⟨[1]⟩).1

/-- A reachable pre-click state for the microphone button: an active text chat
whose transcript holds the model's opening message. -/
def c7Start : HomeState :=
  { s0 with
      sessionState := UiSessionState.chat_active
      messages := [⟨Role.model, "Hello! Lets begin."⟩] }

/-- The same pre-click state after one user reply: two captured messages. -/
def c7Start2 : HomeState :=
  { c7Start with
      messages := [⟨Role.model, "Hello! Lets begin."⟩, ⟨Role.user, "Hi."⟩] }

/-- A state in which an audio session is already live and holds open
microphone stream 1. -/
def c8Active : HomeState :=
  { s0 with
      sessionState := UiSessionState.chat_active
      isAudioSessionActive := true
      audioSessionStatus := AudioSessionStatus.listening
      mediaStream := some 1
      inputAudioContext := some 2
      outputAudioContext := some 3
      sessionPromise := some 4 }

/-- A structured rate-limit error: `error.code === 429`. -/
def rlError : GenError := ⟨some 429, none, none, false, none, none⟩

/-- An API-call behaviour that is rate-limited once and then succeeds. -/
def calls0 : Nat → Except GenError Nat :=
  fun i => if i = 0 then Except.error rlError else Except.ok 7

/-- Every 6-bit index maps into the alphabet and back to itself. -/
theorem b64Index_b64Char : ∀ i, i < 64 → b64Index (b64Char i) = i := by decide

/-- No alphabet character is the padding character. -/
theorem b64Char_ne_pad : ∀ i, i < 64 → b64Char i ≠ '=' := by decide

/-- General base64 roundtrip on byte lists, by induction following the
three-byte chunking of the encoder. -/
theorem decode_encode_of_lt : ∀ (bytes : List Nat), (∀ b ∈ bytes, b < 256) →
    decode (encode bytes) = bytes
  | [], _ => rfl
  | [a], h => by
      have ha : a < 256 := h a (by simp)
      have h1 : a / 4 < 64 := by omega
      have h2 : a % 4 * 16 < 64 := by omega
      have n1 := b64Char_ne_pad _ h1
      have n2 := b64Char_ne_pad _ h2
      have e1 := b64Index_b64Char _ h1
      have e2 := b64Index_b64Char _ h2
      simp [encode, decode, List.filter, n1, n2, decodeIndices, e1, e2]
      omega
  | [a, b], h => by
      have ha : a < 256 := h a (by simp)
      have hb : b < 256 := h b (by simp)
      have h1 : a / 4 < 64 := by omega
      have h2 : a % 4 * 16 + b / 16 < 64 := by omega
      have h3 : b % 16 * 4 < 64 := by omega
      have n1 := b64Char_ne_pad _ h1
      have n2 := b64Char_ne_pad _ h2
      have n3 := b64Char_ne_pad _ h3
      have e1 := b64Index_b64Char _ h1
      have e2 := b64Index_b64Char _ h2
      have e3 := b64Index_b64Char _ h3
      simp [encode, decode, List.filter, n1, n2, n3, decodeIndices, e1, e2, e3]
      omega
  | a :: b :: c :: rest, h => by
      have ha : a < 256 := h a (by simp)
      have hb : b < 256 := h b (by simp)
      have hc : c < 256 := h c (by simp)
      have h1 : a / 4 < 64 := by omega
      have h2 : a % 4 * 16 + b / 16 < 64 := by omega
      have h3 : b % 16 * 4 + c / 64 < 64 := by omega
      have h4 : c % 64 < 64 := by omega
      have n1 := b64Char_ne_pad _ h1
      have n2 := b64Char_ne_pad _ h2
      have n3 := b64Char_ne_pad _ h3
      have n4 := b64Char_ne_pad _ h4
      have e1 := b64Index_b64Char _ h1
      have e2 := b64Index_b64Char _ h2
      have e3 := b64Index_b64Char _ h3
      have e4 := b64Index_b64Char _ h4
      have ih := decode_encode_of_lt rest (fun x hx => h x (by simp [hx]))
      simp [encode, decode, List.filter, n1, n2, n3, n4, decodeIndices,
        e1, e2, e3, e4] at ih ⊢
      exact ⟨by omega, by omega, by omega, ih⟩

/-- C10: for every byte array, decoding the base64 encoding returns the
original bytes — the outbound encoder and inbound decoder used for audio
frames are mutually inverse on byte arrays. -/
theorem C10_base64_roundtrip (bytes : List Nat) (h : ∀ b ∈ bytes, b < 256) :
    decode (encode bytes) = bytes :=
  decode_encode_of_lt bytes h

/-- Witness for C10 at the byte array [72, 101, 108, 108, 111]. -/
theorem C10_base64_roundtrip_witness :
    (∀ b ∈ [72, 101, 108, 108, 111], b < 256) ∧
      decode (encode [72, 101, 108, 108, 111]) = [72, 101, 108, 108, 111] :=
  ⟨by decide, C10_base64_roundtrip [72, 101, 108, 108, 111] (by decide)⟩

/-- C4: running the full teardown (`cleanupAudio`) twice in succession raises
no error (the model is a total function mirroring the guarded source) and
after either invocation every resource ref — session promise, media stream,
script processor, media stream source, both audio contexts — is null and the
in-flight playback source set is empty; the second run changes nothing. -/
theorem C4_cleanup_idempotent (s : HomeState) (w : AudioWorld) :
    cleanupAudio (cleanupAudio s w).1 (cleanupAudio s w).2 = cleanupAudio s w ∧
    (cleanupAudio s w).1.sessionPromise = none ∧
    (cleanupAudio s w).1.mediaStream = none ∧
    (cleanupAudio s w).1.scriptProcessor = none ∧
    (cleanupAudio s w).1.mediaStreamSource = none ∧
    (cleanupAudio s w).1.inputAudioContext = none ∧
    (cleanupAudio s w).1.outputAudioContext = none ∧
    (cleanupAudio s w).1.audioSources = [] := by
  refine ⟨?_, rfl, rfl, rfl, rfl, rfl, rfl, rfl⟩
  simp [cleanupAudio, stopTracks]

/-- C2: a captured microphone block is handed to the transmit path if and
only if the session status at that moment is `listening`; in every other
status the handler returns without encoding or transmitting. -/
theorem C2_outbound_gating (s : HomeState) (block : List Rat) :
    (s.audioSessionStatus = AudioSessionStatus.listening →
      onaudioprocess s block = some (createBlob block)) ∧
    (s.audioSessionStatus ≠ AudioSessionStatus.listening →
      onaudioprocess s block = none) := by
  constructor <;> intro h <;> simp [onaudioprocess, h]

/-- Witness for C2: a block captured while `listening` is encoded and
transmitted; one captured while `ai_speaking` is discarded. -/
theorem C2_outbound_gating_witness :
    onaudioprocess { s0 with audioSessionStatus := AudioSessionStatus.listening } [0] =
      some (createBlob [0]) ∧
    onaudioprocess { s0 with audioSessionStatus := AudioSessionStatus.ai_speaking } [0] =
      none :=
  ⟨(C2_outbound_gating _ [0]).1 rfl,
   (C2_outbound_gating _ [0]).2 (by decide)⟩

/-- C3 (failing input): feeding input-transcription fragments `Hel`, `lo `
for the user, a turn-complete signal, then fragment `Hi` for the user yields
the single message `[{user, Hi}]`, not the claimed
`[{user, Hello }, {user, Hi}]`: the turn-complete signal clears the buffers
but leaves the last-role pointer at `user`, so the next user fragment
overwrites the previous turn's finished message with the restarted buffer. -/
theorem C3_transcription_code_result :
    c3Trace.messages = [⟨Role.user, "Hi"⟩] ∧
    c3Trace.messages ≠ [⟨Role.user, "Hello "⟩, ⟨Role.user, "Hi"⟩] := by
  constructor <;> decide

/-- C1: each decoded buffer is scheduled at `max(nextStartTime, clock)` and
`nextStartTime` then becomes that start plus the buffer's duration; for three
buffers whose arrival clocks never overtake `nextStartTime`, the start times
chain as t0, t0+d1, t0+d1+d2 — gapless and non-overlapping. -/
theorem C1_gapless_scheduling (s : HomeState) (c1 c2 c3 d1 d2 d3 : Rat)
    (n1 n2 n3 : Nat)
    (h2 : c2 ≤ (handleAudioChunk s c1 d1 n1).state.nextAudioStartTime)
    (h3 : c3 ≤ (handleAudioChunk (handleAudioChunk s c1 d1 n1).state
        c2 d2 n2).state.nextAudioStartTime) :
    (handleAudioChunk s c1 d1 n1).scheduledStart = max s.nextAudioStartTime c1 ∧
    (handleAudioChunk s c1 d1 n1).state.nextAudioStartTime =
      (handleAudioChunk s c1 d1 n1).scheduledStart + d1 ∧
    (handleAudioChunk (handleAudioChunk s c1 d1 n1).state c2 d2 n2).scheduledStart =
      (handleAudioChunk s c1 d1 n1).scheduledStart + d1 ∧
    (handleAudioChunk (handleAudioChunk s c1 d1 n1).state c2 d2 n2).state.nextAudioStartTime =
      (handleAudioChunk (handleAudioChunk s c1 d1 n1).state c2 d2 n2).scheduledStart + d2 ∧
    (handleAudioChunk (handleAudioChunk (handleAudioChunk s c1 d1 n1).state
        c2 d2 n2).state c3 d3 n3).scheduledStart =
      (handleAudioChunk s c1 d1 n1).scheduledStart + d1 + d2 := by
  have h2' : c2 ≤ max s.nextAudioStartTime c1 + d1 := h2
  have h3' : c3 ≤ max (max s.nextAudioStartTime c1 + d1) c2 + d2 := h3
  refine ⟨rfl, rfl, max_eq_left h2, rfl, ?_⟩
  show max (max (max s.nextAudioStartTime c1 + d1) c2 + d2) c3 =
    max s.nextAudioStartTime c1 + d1 + d2
  rw [max_eq_left h2'] at h3' ⊢
  rw [max_eq_left h3']

/-- Witness for C1: three one-second buffers arriving at clocks 0, 1, 2 into a
fresh state are scheduled at 0, 1, 2. -/
theorem C1_gapless_scheduling_witness :
    (1 : Rat) ≤ (handleAudioChunk s0 0 1 1).state.nextAudioStartTime ∧
    (handleAudioChunk (handleAudioChunk (handleAudioChunk s0 0 1 1).state
        1 1 2).state 2 1 3).scheduledStart =
      (handleAudioChunk s0 0 1 1).scheduledStart + 1 + 1 :=
  ⟨by norm_num [handleAudioChunk, s0],
   (C1_gapless_scheduling s0 0 1 2 1 1 1 1 2 3
      (by norm_num [handleAudioChunk, s0])
      (by norm_num [handleAudioChunk, s0])).2.2.2.2⟩

/-- The one-shot timer is armed so that, by the clock read when arming, it
fires exactly at the scheduled end (or immediately when that end has already
passed). -/
theorem timer_delay_eq (s : HomeState) (clock d : Rat) (src : Nat) :
    clock + (handleAudioChunk s clock d src).timer.delayMs / 1000 =
      max (handleAudioChunk s clock d src).scheduledEnd clock := by
  show clock + (if (max s.nextAudioStartTime clock + d - clock) * 1000 > 0
      then (max s.nextAudioStartTime clock + d - clock) * 1000 else 0) / 1000 =
    max (max s.nextAudioStartTime clock + d) clock
  rcases le_or_lt (max s.nextAudioStartTime clock + d) clock with h | h
  · rw [if_neg (by nlinarith), max_eq_right h]
    norm_num
  · rw [if_pos (by nlinarith), max_eq_left h.le,
      mul_div_cancel_right₀ _ (by norm_num : (1000 : Rat) ≠ 0)]
    ring

/-- The timer callback moves the status to `listening` exactly when the
scheduled-end guard passes (or the status already was `listening`). -/
theorem timerFire_status_iff (s2 : HomeState) (t : PlaybackTimer) :
    (playbackTimerFire s2 t).audioSessionStatus = AudioSessionStatus.listening ↔
      (s2.nextAudioStartTime ≤ t.scheduledEnd ∨
        s2.audioSessionStatus = AudioSessionStatus.listening) := by
  unfold playbackTimerFire
  split
  · next h => simp [h]
  · next h => simp [h]

/-- A timer whose captured end has been strictly passed by `nextStartTime`
leaves the state untouched when it fires. -/
theorem timerFire_stale (s2 : HomeState) (t : PlaybackTimer)
    (h : t.scheduledEnd < s2.nextAudioStartTime) : playbackTimerFire s2 t = s2 := by
  unfold playbackTimerFire
  rw [if_neg (not_le.mpr h)]

/-- C5: the one-shot timer armed for a buffer fires no earlier than the
buffer's scheduled end; when it fires it sets the status to `listening` only
if no later-scheduled buffer has pushed `nextStartTime` strictly beyond its
captured end; scheduling a later buffer of positive duration does push
`nextStartTime` strictly beyond, making the earlier timer a no-op; and a
buffer's `ended` event never changes the status. -/
theorem C5_status_transition_guard (s s1 : HomeState) (clock clock2 d d2 : Rat)
    (src src2 : Nat) (hd2 : 0 < d2)
    (hlater : (handleAudioChunk s clock d src).scheduledEnd ≤ s1.nextAudioStartTime) :
    clock + (handleAudioChunk s clock d src).timer.delayMs / 1000 =
      max (handleAudioChunk s clock d src).scheduledEnd clock ∧
    (∀ s2 : HomeState,
      ((playbackTimerFire s2 (handleAudioChunk s clock d src).timer).audioSessionStatus =
          AudioSessionStatus.listening ↔
        (s2.nextAudioStartTime ≤ (handleAudioChunk s clock d src).scheduledEnd ∨
          s2.audioSessionStatus = AudioSessionStatus.listening))) ∧
    (handleAudioChunk s clock d src).scheduledEnd <
      (handleAudioChunk s1 clock2 d2 src2).state.nextAudioStartTime ∧
    playbackTimerFire (handleAudioChunk s1 clock2 d2 src2).state
        (handleAudioChunk s clock d src).timer =
      (handleAudioChunk s1 clock2 d2 src2).state ∧
    (∀ (s2 : HomeState) (src3 : Nat),
      (onSourceEnded s2 src3).audioSessionStatus = s2.audioSessionStatus) := by
  have hpush : (handleAudioChunk s clock d src).scheduledEnd <
      (handleAudioChunk s1 clock2 d2 src2).state.nextAudioStartTime := by
    show (handleAudioChunk s clock d src).scheduledEnd < max s1.nextAudioStartTime clock2 + d2
    have hm := le_max_left s1.nextAudioStartTime clock2
    linarith
  refine ⟨timer_delay_eq s clock d src,
    fun s2 => timerFire_status_iff s2 (handleAudioChunk s clock d src).timer,
    hpush, timerFire_stale _ _ hpush, fun _ _ => rfl⟩

/-- Witness for C5: with a one-second buffer scheduled at clock 0 (end = 1)
and a later one-second buffer scheduled from `nextStartTime` 1, the earlier
buffer's timer is a no-op. -/
theorem C5_status_transition_guard_witness :
    (0 : Rat) < 1 ∧
    playbackTimerFire (handleAudioChunk { s0 with nextAudioStartTime := 1 } 1 1 2).state
        (handleAudioChunk s0 0 1 1).timer =
      (handleAudioChunk { s0 with nextAudioStartTime := 1 } 1 1 2).state :=
  ⟨by norm_num,
   (C5_status_transition_guard s0 { s0 with nextAudioStartTime := 1 } 0 1 1 1 1 2
      (by norm_num) (by norm_num [handleAudioChunk, s0])).2.2.2.1⟩

/-- C6 (counterexample): teardown does not reset `nextAudioStartTimeRef` and
cannot cancel an armed timer, so the pending timer of the latest-scheduled
buffer passes its guard after `resetToIdle` and flips the status to
`listening` even though the session has returned to `idle`. -/
theorem C6_stale_timer_counterexample :
    c6AfterReset.audioSessionStatus = AudioSessionStatus.idle ∧
    c6AfterReset.sessionState = UiSessionState.idle ∧
    c6AfterReset.mediaStream = none ∧
    (playbackTimerFire c6AfterReset c6Sched.timer).audioSessionStatus =
      AudioSessionStatus.listening := by
  refine ⟨rfl, rfl, rfl, ?_⟩
  have hle : c6AfterReset.nextAudioStartTime ≤ c6Sched.timer.scheduledEnd := by
    norm_num [c6AfterReset, c6Sched, c6Start, resetToIdle, cleanupAudio, stopTracks,
      handleAudioChunk, s0]
  simp [playbackTimerFire, hle]

/-- C6 (amended): the timer's action is re-validated only against the
playback end-time clock — teardown leaves `nextAudioStartTime` unchanged, and
a pending timer fired after `resetToIdle` sets the status to `listening`
exactly when the pre-teardown `nextAudioStartTime` is at most its captured
scheduled end; only timers superseded by a later-scheduled buffer are
discarded. -/
theorem C6_timer_after_teardown_amended (s : HomeState) (w : AudioWorld)
    (t : PlaybackTimer) :
    (resetToIdle s w).1.nextAudioStartTime = s.nextAudioStartTime ∧
    ((playbackTimerFire (resetToIdle s w).1 t).audioSessionStatus =
        AudioSessionStatus.listening ↔ s.nextAudioStartTime ≤ t.scheduledEnd) := by
  refine ⟨rfl, ?_⟩
  rw [timerFire_status_iff]
  simp [resetToIdle, cleanupAudio]

/-- Witness for C6's amended statement at the concrete stale-timer trace. -/
theorem C6_timer_after_teardown_amended_witness :
    (playbackTimerFire (resetToIdle c6Sched.state ⟨[1]⟩).1 c6Sched.timer).audioSessionStatus =
      AudioSessionStatus.listening :=
  (C6_timer_after_teardown_amended c6Sched.state ⟨[1]⟩ c6Sched.timer).2.mpr
    (by norm_num [c6Sched, c6Start, handleAudioChunk, s0])

/-- C7 (counterexample): at the reachable pre-click state — an active text
chat holding only the model's opening message — microphone denial runs the
render-captured `handleEndSession` closure (captured `isAudioSessionActive`
is `false`, save threshold `messages.length > 1`), which takes the
`resetToIdle` branch: the UI returns to idle but the just-set microphone
error message is erased; with a second captured message the error instead
survives but the UI lands in `session_completed` with `audioSessionStatus`
still `connecting`, not idle. Either way the claim's conjunction fails. -/
theorem C7_mic_denied_counterexample :
    ((startLiveAudioSessionMicDenied c7Start ⟨[]⟩).1.error = none ∧
     (startLiveAudioSessionMicDenied c7Start ⟨[]⟩).1.sessionState = UiSessionState.idle) ∧
    ((startLiveAudioSessionMicDenied c7Start2 ⟨[]⟩).1.error = some micErrorMsg ∧
     (startLiveAudioSessionMicDenied c7Start2 ⟨[]⟩).1.sessionState ≠ UiSessionState.idle ∧
     (startLiveAudioSessionMicDenied c7Start2 ⟨[]⟩).1.audioSessionStatus ≠
       AudioSessionStatus.idle) := by
  refine ⟨⟨?_, ?_⟩, ?_, ?_, ?_⟩ <;> decide

/-- C7 (amended): microphone denial aborts the session without retry and
releases every resource; the surviving UI state is decided by the
render-captured values read by the stale `handleEndSession` closure. When the
captured render was an active chat whose transcript exceeds the save
threshold (more than 1 message, since `isAudioSessionActive` is `false` at
the render showing the mic button; more than 0 had it been `true`), the error
message remains surfaced but the UI moves to `session_completed`, saving the
captured transcript with the captured `isAudioSessionActive` flag, and
`audioSessionStatus` stays `connecting`; otherwise — including the reachable
one-message opening state — `resetToIdle` runs: the UI fully returns to idle
but the error message is erased. -/
theorem C7_mic_denied_amended (s : HomeState) (w : AudioWorld) :
    (startLiveAudioSessionMicDenied s w).1.sessionPromise = none ∧
    (startLiveAudioSessionMicDenied s w).1.mediaStream = none ∧
    (startLiveAudioSessionMicDenied s w).1.scriptProcessor = none ∧
    (startLiveAudioSessionMicDenied s w).1.mediaStreamSource = none ∧
    (startLiveAudioSessionMicDenied s w).1.inputAudioContext = none ∧
    (startLiveAudioSessionMicDenied s w).1.outputAudioContext = none ∧
    (startLiveAudioSessionMicDenied s w).1.audioSources = [] ∧
    (if s.sessionState = UiSessionState.chat_active ∧
        s.messages.length > (if s.isAudioSessionActive then 0 else 1) then
      (startLiveAudioSessionMicDenied s w).1.error = some micErrorMsg ∧
      (startLiveAudioSessionMicDenied s w).1.sessionState = UiSessionState.session_completed ∧
      (startLiveAudioSessionMicDenied s w).1.audioSessionStatus = AudioSessionStatus.connecting ∧
      (startLiveAudioSessionMicDenied s w).1.completedSession =
        some (s.messages, s.isAudioSessionActive)
    else
      (startLiveAudioSessionMicDenied s w).1.error = none ∧
      (startLiveAudioSessionMicDenied s w).1.sessionState = UiSessionState.idle ∧
      (startLiveAudioSessionMicDenied s w).1.audioSessionStatus = AudioSessionStatus.idle) := by
  by_cases h : s.sessionState = UiSessionState.chat_active ∧
      s.messages.length > (if s.isAudioSessionActive then 0 else 1)
  · simp [startLiveAudioSessionMicDenied, startAudioPrefix, handleEndSession,
      cleanupAudio, resetToIdle, stopTracks, h]
  · simp [startLiveAudioSessionMicDenied, startAudioPrefix, handleEndSession,
      cleanupAudio, resetToIdle, stopTracks, h]

/-- Witness for C7's amended statement at the reachable pre-click state. -/
theorem C7_mic_denied_amended_witness :
    (startLiveAudioSessionMicDenied c7Start ⟨[]⟩).1.mediaStream = none :=
  (C7_mic_denied_amended c7Start ⟨[]⟩).2.1

/-- C8 (counterexample): invoking `startLiveAudioSession` while a prior
session holds open microphone stream 1 acquires stream 2 without stopping
stream 1 — both streams are open simultaneously, so the function performs no
prior teardown. -/
theorem C8_no_prior_teardown_counterexample :
    (startLiveAudioSession c8Active ⟨[1]⟩ 2 3 4 5).2.openStreams = [1, 2] ∧
    1 ∈ (startLiveAudioSession c8Active ⟨[1]⟩ 2 3 4 5).2.openStreams ∧
    2 ∈ (startLiveAudioSession c8Active ⟨[1]⟩ 2 3 4 5).2.openStreams := by
  refine ⟨rfl, ?_, ?_⟩ <;> decide

/-- C8 (amended): `startLiveAudioSession` itself releases nothing — started
while the prior session's stream is open, both the prior and the new stream
are open afterwards; a single open stream is guaranteed only when the prior
session was torn down (`cleanupAudio`, as the end-session paths do) before the
new acquisition, in which case exactly the new stream is open. -/
theorem C8_single_stream_amended (s : HomeState) (w : AudioWorld)
    (m stream inCtx outCtx sid : Nat)
    (hms : s.mediaStream = some m) (hw : w.openStreams = [m]) :
    (startLiveAudioSession s w stream inCtx outCtx sid).2.openStreams = [m, stream] ∧
    (startLiveAudioSession (cleanupAudio s w).1 (cleanupAudio s w).2
        stream inCtx outCtx sid).2.openStreams = [stream] := by
  constructor
  · simp [startLiveAudioSession, acquireResources, startAudioPrefix, hw]
  · simp [startLiveAudioSession, acquireResources, startAudioPrefix, cleanupAudio,
      stopTracks, hms, hw, List.filter]

/-- Witness for C8's amended statement: teardown of the session holding
stream 1, then acquisition of stream 2, leaves exactly stream 2 open. -/
theorem C8_single_stream_amended_witness :
    (startLiveAudioSession (cleanupAudio c8Active ⟨[1]⟩).1 (cleanupAudio c8Active ⟨[1]⟩).2
        2 3 4 5).2.openStreams = [2] :=
  (C8_single_stream_amended c8Active ⟨[1]⟩ 1 2 3 4 5 rfl rfl).2

/-- One unfolding step of the retry loop. -/
theorem withRetryLoop_succ {α : Type} (apiCall : Nat → Except GenError α)
    (fuel i : Nat) (ds : List Nat) (last : Option GenError) :
    withRetryLoop apiCall (fuel + 1) i ds last =
      match apiCall i with
      | Except.ok v => ⟨Except.ok v, i + 1, ds⟩
      | Except.error e =>
          if isRateLimitError e ∧ i < MAX_RETRIES - 1 then
            withRetryLoop apiCall fuel (i + 1) (ds ++ [INITIAL_BACKOFF_MS * 2 ^ i]) (some e)
          else ⟨Except.error e, i + 1, ds⟩ := rfl

/-- C9: `withRetry` invokes the wrapped call between 1 and 3 times; every
attempt before the last failed with an error classified as rate-limiting; the
awaited delays are exactly `1000·2^i` ms before retry `i+1`; a successful
last attempt's value is returned unchanged; a failing last attempt's error is
rethrown, and the run only ends on an error when it is not a rate-limit error
or the attempt cap of 3 is exhausted. -/
theorem C9_withRetry_spec {α : Type} (apiCall : Nat → Except GenError α) :
    1 ≤ (withRetry apiCall).callsMade ∧
    (withRetry apiCall).callsMade ≤ 3 ∧
    (∀ i, i + 1 < (withRetry apiCall).callsMade →
      ∃ e, apiCall i = Except.error e ∧ isRateLimitError e = true) ∧
    (withRetry apiCall).delays =
      (List.range ((withRetry apiCall).callsMade - 1)).map
        (fun i => INITIAL_BACKOFF_MS * 2 ^ i) ∧
    (∀ v, apiCall ((withRetry apiCall).callsMade - 1) = Except.ok v →
      (withRetry apiCall).result = Except.ok v) ∧
    (∀ e, apiCall ((withRetry apiCall).callsMade - 1) = Except.error e →
      (withRetry apiCall).result = Except.error e ∧
        (isRateLimitError e = false ∨ (withRetry apiCall).callsMade = 3)) := by
  have hw : withRetry apiCall = withRetryLoop apiCall (2 + 1) 0 [] none := rfl
  rcases h0 : apiCall 0 with e0 | v0
  · by_cases hr0 : isRateLimitError e0 = true
    · have ht1 : withRetry apiCall = withRetryLoop apiCall 2 1 [1000] (some e0) := by
        rw [hw, withRetryLoop_succ, h0]
        show (if isRateLimitError e0 = true ∧ 0 < MAX_RETRIES - 1 then
            withRetryLoop apiCall 2 1 [1000] (some e0)
          else ⟨Except.error e0, 1, []⟩) = withRetryLoop apiCall 2 1 [1000] (some e0)
        rw [if_pos ⟨hr0, by norm_num [MAX_RETRIES]⟩]
      have hw2 : withRetryLoop apiCall 2 1 [1000] (some e0) =
          withRetryLoop apiCall (1 + 1) 1 [1000] (some e0) := rfl
      rcases h1 : apiCall 1 with e1 | v1
      · by_cases hr1 : isRateLimitError e1 = true
        · have ht2 : withRetry apiCall =
              withRetryLoop apiCall 1 2 [1000, 2000] (some e1) := by
            rw [ht1, hw2, withRetryLoop_succ, h1]
            show (if isRateLimitError e1 = true ∧ 1 < MAX_RETRIES - 1 then
                withRetryLoop apiCall 1 2 [1000, 2000] (some e1)
              else ⟨Except.error e1, 2, [1000]⟩) =
                withRetryLoop apiCall 1 2 [1000, 2000] (some e1)
            rw [if_pos ⟨hr1, by norm_num [MAX_RETRIES]⟩]
          have hw1 : withRetryLoop apiCall 1 2 [1000, 2000] (some e1) =
              withRetryLoop apiCall (0 + 1) 2 [1000, 2000] (some e1) := rfl
          rcases h2 : apiCall 2 with e2 | v2
          · have ht3 : withRetry apiCall = ⟨Except.error e2, 3, [1000, 2000]⟩ := by
              rw [ht2, hw1, withRetryLoop_succ, h2]
              show (if isRateLimitError e2 = true ∧ 2 < MAX_RETRIES - 1 then
                  withRetryLoop apiCall 0 3 ([1000, 2000] ++ [1000 * 2 ^ 2]) (some e2)
                else ⟨Except.error e2, 3, [1000, 2000]⟩) =
                  (⟨Except.error e2, 3, [1000, 2000]⟩ : RetryTrace α)
              rw [if_neg (fun hc => absurd hc.2 (by norm_num [MAX_RETRIES]))]
            have hc : (withRetry apiCall).callsMade = 3 := by rw [ht3]
            have hd : (withRetry apiCall).delays = [1000, 2000] := by rw [ht3]
            have hr : (withRetry apiCall).result = Except.error e2 := by rw [ht3]
            rw [hc, hd, hr]
            refine ⟨by norm_num, by norm_num, ?_, by decide, ?_, ?_⟩
            · intro i hi
              have hi2 : i = 0 ∨ i = 1 := by omega
              rcases hi2 with rfl | rfl
              · exact ⟨e0, h0, hr0⟩
              · exact ⟨e1, h1, hr1⟩
            · intro v hv
              norm_num at hv
              rw [h2] at hv
              exact Except.noConfusion hv
            · intro e he
              norm_num at he
              rw [h2] at he
              injection he with h
              subst h
              exact ⟨rfl, Or.inr rfl⟩
          · have ht3 : withRetry apiCall = ⟨Except.ok v2, 3, [1000, 2000]⟩ := by
              rw [ht2, hw1, withRetryLoop_succ, h2]
            have hc : (withRetry apiCall).callsMade = 3 := by rw [ht3]
            have hd : (withRetry apiCall).delays = [1000, 2000] := by rw [ht3]
            have hr : (withRetry apiCall).result = Except.ok v2 := by rw [ht3]
            rw [hc, hd, hr]
            refine ⟨by norm_num, by norm_num, ?_, by decide, ?_, ?_⟩
            · intro i hi
              have hi2 : i = 0 ∨ i = 1 := by omega
              rcases hi2 with rfl | rfl
              · exact ⟨e0, h0, hr0⟩
              · exact ⟨e1, h1, hr1⟩
            · intro v hv
              norm_num at hv
              rw [h2] at hv
              exact hv
            · intro e he
              norm_num at he
              rw [h2] at he
              exact Except.noConfusion he
        · rw [Bool.not_eq_true] at hr1
          have ht2 : withRetry apiCall = ⟨Except.error e1, 2, [1000]⟩ := by
            rw [ht1, hw2, withRetryLoop_succ, h1]
            show (if isRateLimitError e1 = true ∧ 1 < MAX_RETRIES - 1 then
                withRetryLoop apiCall 1 2 ([1000] ++ [1000 * 2 ^ 1]) (some e1)
              else ⟨Except.error e1, 2, [1000]⟩) =
                (⟨Except.error e1, 2, [1000]⟩ : RetryTrace α)
            rw [if_neg (fun hc => absurd hc.1 (by simp [hr1]))]
          have hc : (withRetry apiCall).callsMade = 2 := by rw [ht2]
          have hd : (withRetry apiCall).delays = [1000] := by rw [ht2]
          have hr : (withRetry apiCall).result = Except.error e1 := by rw [ht2]
          rw [hc, hd, hr]
          refine ⟨by norm_num, by norm_num, ?_, by decide, ?_, ?_⟩
          · intro i hi
            have hi2 : i = 0 := by omega
            subst hi2
            exact ⟨e0, h0, hr0⟩
          · intro v hv
            norm_num at hv
            rw [h1] at hv
            exact Except.noConfusion hv
          · intro e he
            norm_num at he
            rw [h1] at he
            injection he with h
            subst h
            exact ⟨rfl, Or.inl hr1⟩
      · have ht2 : withRetry apiCall = ⟨Except.ok v1, 2, [1000]⟩ := by
          rw [ht1, hw2, withRetryLoop_succ, h1]
        have hc : (withRetry apiCall).callsMade = 2 := by rw [ht2]
        have hd : (withRetry apiCall).delays = [1000] := by rw [ht2]
        have hr : (withRetry apiCall).result = Except.ok v1 := by rw [ht2]
        rw [hc, hd, hr]
        refine ⟨by norm_num, by norm_num, ?_, by decide, ?_, ?_⟩
        · intro i hi
          have hi2 : i = 0 := by omega
          subst hi2
          exact ⟨e0, h0, hr0⟩
        · intro v hv
          norm_num at hv
          rw [h1] at hv
          exact hv
        · intro e he
          norm_num at he
          rw [h1] at he
          exact Except.noConfusion he
    · rw [Bool.not_eq_true] at hr0
      have ht1 : withRetry apiCall = ⟨Except.error e0, 1, []⟩ := by
        rw [hw, withRetryLoop_succ, h0]
        show (if isRateLimitError e0 = true ∧ 0 < MAX_RETRIES - 1 then
            withRetryLoop apiCall 2 1 ([] ++ [1000 * 2 ^ 0]) (some e0)
          else ⟨Except.error e0, 1, []⟩) = (⟨Except.error e0, 1, []⟩ : RetryTrace α)
        rw [if_neg (fun hc => absurd hc.1 (by simp [hr0]))]
      have hc : (withRetry apiCall).callsMade = 1 := by rw [ht1]
      have hd : (withRetry apiCall).delays = [] := by rw [ht1]
      have hr : (withRetry apiCall).result = Except.error e0 := by rw [ht1]
      rw [hc, hd, hr]
      refine ⟨by norm_num, by norm_num, fun i hi => absurd hi (by omega), by decide, ?_, ?_⟩
      · intro v hv
        norm_num at hv
        rw [h0] at hv
        exact Except.noConfusion hv
      · intro e he
        norm_num at he
        rw [h0] at he
        injection he with h
        subst h
        exact ⟨rfl, Or.inl hr0⟩
  · have ht1 : withRetry apiCall = ⟨Except.ok v0, 1, []⟩ := by
      rw [hw, withRetryLoop_succ, h0]
    have hc : (withRetry apiCall).callsMade = 1 := by rw [ht1]
    have hd : (withRetry apiCall).delays = [] := by rw [ht1]
    have hr : (withRetry apiCall).result = Except.ok v0 := by rw [ht1]
    rw [hc, hd, hr]
    refine ⟨by norm_num, by norm_num, fun i hi => absurd hi (by omega), by decide, ?_, ?_⟩
    · intro v hv
      norm_num at hv
      rw [h0] at hv
      exact hv
    · intro e he
      norm_num at he
      rw [h0] at he
      exact Except.noConfusion he

/-- Witness for C9 at a call behaviour that is rate-limited once and then
succeeds: the retry happened because attempt 0 threw a rate-limit error. -/
theorem C9_withRetry_spec_witness :
    0 + 1 < (withRetry calls0).callsMade ∧
    (∃ e, calls0 0 = Except.error e ∧ isRateLimitError e = true) :=
  ⟨by decide, (C9_withRetry_spec calls0).2.2.1 0 (by decide)⟩

end CareerCatalyst
